import Mathlib

/-!
Verification of the budget/actuals reconciliation pipeline.

This file gives a shallow embedding, in Lean 4, of the reconciliation core of
the repository: the identifier normalizers (`teamMapping`, `employeeMapping`,
period parsing), the budget CSV reader, the actuals query, the employee join
(`matchEmployeeData`), the team aggregation (`generateTeamSummary`) and the
executive-summary assembly, followed by theorems about them.

Conventions of the embedding:
* JavaScript strings are modelled as `List Char` (`Str`).
* JavaScript numbers holding hours are modelled as `ℚ` (exact arithmetic);
  `parseInt` results are integers embedded in `ℚ`.
* A TypeScript function that can `throw` is modelled as returning `Option`
  (`none` = thrown) or `Except` where the error value matters.
* JavaScript objects used as string-keyed records are modelled as association
  lists `List (Str × α)` in insertion order.
-/

set_option maxHeartbeats 1000000

abbrev Str := List Char

/-- Coerce a Lean string literal to the `List Char` model. -/
def str (s : String) : Str := s.data

/-- Whitespace test covering the characters relevant to the repository's data
(JS `\s` on ASCII input). -/
def isWs (c : Char) : Bool :=
  c = ' ' ∨ c = '\t' ∨ c = '\n' ∨ c = '\r'

/-- JS `String.prototype.trim` on ASCII input: strip whitespace at both ends. -/
def jsTrim (s : Str) : Str :=
  ((s.dropWhile isWs).reverse.dropWhile isWs).reverse

/-- Helper for `jsSplitWs`: accumulates the current (reversed) word. -/
def splitWsAux : Str → Str → List Str
  | [], acc => if acc = [] then [] else [acc.reverse]
  | c :: cs, acc =>
    if isWs c then
      (if acc = [] then splitWsAux cs [] else acc.reverse :: splitWsAux cs [])
    else
      splitWsAux cs (c :: acc)

/-- JS `s.split(/\s+/)` as used in the sources: every call site first applies
`trim()`, and on a trimmed string splitting on whitespace runs yields exactly
the maximal non-whitespace words, which is what this computes. -/
def jsSplitWs (s : Str) : List Str := splitWsAux s []

/-- Decimal value of a digit string (the action of `parseInt(s, 10)` on a
string that is entirely decimal digits). -/
def digitsToNat (s : Str) : Nat :=
  s.foldl (fun a c => a * 10 + (c.toNat - 48)) 0

/-- Decimal rendering of a natural number (JS `String(n)` / template
interpolation of a nonnegative integer). -/
def natToStr (n : Nat) : Str :=
  if n = 0 then ['0'] else ((Nat.digits 10 n).reverse.map Nat.digitChar)

/- ===== teamMapping.ts ===== -/

/-- `ARABIC_TO_ROMAN` dictionary from `teamMapping.ts`. -/
def ARABIC_TO_ROMAN : List (Nat × Str) :=
  [(1, str "I"), (2, str "II"), (3, str "III"), (4, str "IV"), (5, str "V"),
   (6, str "VI"), (7, str "VII"), (8, str "VIII"), (9, str "IX"), (10, str "X"),
   (11, str "XI"), (12, str "XII"), (13, str "XIII"), (14, str "XIV"),
   (15, str "XV"), (16, str "XVI"), (17, str "XVII"), (18, str "XVIII"),
   (19, str "XIX"), (20, str "XX")]

/-- `ROMAN_TO_ARABIC`: the reverse mapping built from `ARABIC_TO_ROMAN`. -/
def ROMAN_TO_ARABIC : List (Str × Nat) :=
  ARABIC_TO_ROMAN.map (fun p => (p.2, p.1))

/-- `convertToRoman`: defined for integers 1–20, otherwise throws (`none`). -/
def convertToRoman (num : Nat) : Option Str :=
  if 1 ≤ num ∧ num ≤ 20 then List.lookup num ARABIC_TO_ROMAN else none

/-- `convertFromRoman`: uppercase and trim the input, then look it up;
unrecognized numerals throw (`none`). -/
def convertFromRoman (roman : Str) : Option Nat :=
  List.lookup (jsTrim (roman.map Char.toUpper)) ROMAN_TO_ARABIC

/-- `formatTeamNameForDatabase` (display form → storage form): trim, split on
whitespace into exactly two tokens, convert the Roman numeral, and append the
Arabic number to the prefix token. Any failure throws (`none`). -/
def formatTeamNameForDatabase (csvTeamName : Str) : Option Str :=
  if csvTeamName = [] then none
  else
    match jsSplitWs (jsTrim csvTeamName) with
    | [pfx, romanNumeral] =>
      match convertFromRoman romanNumeral with
      | some arabicNumber => some (pfx ++ natToStr arabicNumber)
      | none => none
    | _ => none

/-- The regex `^([A-Z]+)(\d+)$` of `formatTeamNameForDisplay`: a nonempty run
of uppercase letters followed by a nonempty run of digits, covering the whole
string. Returns the two capture groups. -/
def matchStorageTeam (s : Str) : Option (Str × Str) :=
  let letters := s.takeWhile Char.isUpper
  let rest := s.dropWhile Char.isUpper
  if letters ≠ [] ∧ rest ≠ [] ∧ rest.all Char.isDigit then some (letters, rest)
  else none

/-- `formatTeamNameForDisplay` (storage form → display form): trim, match
`^([A-Z]+)(\d+)$`, parse the digits, convert to Roman, join with a space.
Any failure throws (`none`). -/
def formatTeamNameForDisplay (dbTeamName : Str) : Option Str :=
  if dbTeamName = [] then none
  else
    match matchStorageTeam (jsTrim dbTeamName) with
    | some (pfx, numberStr) =>
      match convertToRoman (digitsToNat numberStr) with
      | some romanNumeral => some (pfx ++ ' ' :: romanNumeral)
      | none => none
    | none => none

/- ===== employeeMapping.ts ===== -/

/-- `extractInitials`: trim, find the first hyphen, take the text before it,
trim and uppercase it. An empty input, a missing hyphen, or an empty initials
segment throws (`none`). -/
def extractInitials (databaseName : Str) : Option Str :=
  if databaseName = [] then none
  else
    let trimmed := jsTrim databaseName
    match trimmed.findIdx? (· = '-') with
    | none => none
    | some hyphenIndex =>
      let initials := jsTrim (trimmed.take hyphenIndex)
      if initials = [] then none else some (initials.map Char.toUpper)

/-- `extractFullName`: trim, find the first hyphen, take the text after it,
trimmed. An empty input, a missing hyphen, or an empty name segment throws
(`none`). -/
def extractFullName (databaseName : Str) : Option Str :=
  if databaseName = [] then none
  else
    let trimmed := jsTrim databaseName
    match trimmed.findIdx? (· = '-') with
    | none => none
    | some hyphenIndex =>
      let fullName := jsTrim (trimmed.drop (hyphenIndex + 1))
      if fullName = [] then none else some fullName

/-- Capitalization of one word in `formatEmployeeNameForDisplay`:
`word.charAt(0).toUpperCase() + word.slice(1).toLowerCase()`. -/
def titleWord : Str → Str
  | [] => []
  | c :: cs => Char.toUpper c :: cs.map Char.toLower

/-- `formatEmployeeNameForDisplay`: trim, split on single spaces, capitalize
each word, join with spaces. An empty input throws (`none`). -/
def formatEmployeeNameForDisplay (fullName : Str) : Option Str :=
  if fullName = [] then none
  else some (List.intercalate [' '] (((jsTrim fullName).splitOn ' ').map titleWord))

/- ===== csvReader.ts ===== -/

/-- A raw CSV row: the header→cell association object, in header order. -/
abbrev BudgetCsvRow := List (Str × Str)

/-- Processed budget record (`ProcessedBudgetData`). Hours are exact
rationals; `monthlyHours` is the month-code→hours association object. -/
structure ProcessedBudgetData where
  team : Str
  description : Str
  employee : Str
  taskId : Str
  monthlyHours : List (Str × ℚ)
  totalHours : ℚ
  deriving DecidableEq, Inhabited

/-- Cleaning applied to each header and cell in `readCsvFile`:
`.trim().replace(/\r/g, '')`. -/
def cleanCell (s : Str) : Str := (jsTrim s).filter (· ≠ '\r')

/-- `readCsvFile` (parsing part, given the file content): split into lines on
`'\n'`, read the header row (split on `';'`, cleaned), then for each later
line skip it when blank after trimming, otherwise split on `';'` and associate
each header with the corresponding cell (empty when the row is short),
cleaned. Rows are produced in file line order. -/
def readCsvFile (content : Str) : List BudgetCsvRow :=
  match content.splitOn '\n' with
  | [] => []
  | headerLine :: dataLines =>
    let headers := (headerLine.splitOn ';').map cleanCell
    (dataLines.filter (fun l => jsTrim l ≠ [])).map (fun l =>
      let values := (jsTrim l).splitOn ';'
      headers.enum.map (fun p => (p.2, cleanCell (values.getD p.1 []))))

/-- JS `parseInt(s)` on base-10 text: skip leading whitespace, optional sign,
then the longest run of leading digits; no digits means `NaN` (`none`).
(The hexadecimal `0x` form never occurs in budget cells and is not modelled.) -/
def jsParseInt (s : Str) : Option Int :=
  let t := s.dropWhile isWs
  match t with
  | '-' :: r =>
    let d := r.takeWhile Char.isDigit
    if d = [] then none else some (-(digitsToNat d : Int))
  | '+' :: r =>
    let d := r.takeWhile Char.isDigit
    if d = [] then none else some (digitsToNat d : Int)
  | r =>
    let d := r.takeWhile Char.isDigit
    if d = [] then none else some (digitsToNat d : Int)

/-- The cell coercion `parseInt(row[key]) || 0` of `processBudgetData`. -/
def parseHours (cell : Str) : ℚ :=
  match jsParseInt cell with
  | some k => (k : ℚ)
  | none => 0

/-- Fixed-field access `row.Team` etc.: property lookup on the row object,
yielding the empty string when absent. -/
def rowField (row : BudgetCsvRow) (key : Str) : Str :=
  (List.lookup key row).getD []

/-- `processBudgetData`: for each row, the keys starting with `'2025'` are the
monthly columns; each cell is coerced with `parseInt(..) || 0`, collected into
`monthlyHours`, and summed into `totalHours`. -/
def processBudgetData (rawData : List BudgetCsvRow) : List ProcessedBudgetData :=
  rawData.map (fun row =>
    let monthly := (row.filter (fun p => (str "2025").isPrefixOf p.1)).map
      (fun p => (p.1, parseHours p.2))
    { team := rowField row (str "Team")
      description := rowField row (str "Description")
      employee := rowField row (str "Employee")
      taskId := rowField row (str "TaskID")
      monthlyHours := monthly
      totalHours := (monthly.map (fun p => p.2)).sum })

/-- `monthMap` of `convertPeriodToCode`: lowercase month names to 2-digit
month codes. -/
def monthMap : List (Str × Str) :=
  [(str "january", str "01"), (str "february", str "02"), (str "march", str "03"),
   (str "april", str "04"), (str "may", str "05"), (str "june", str "06"),
   (str "july", str "07"), (str "august", str "08"), (str "september", str "09"),
   (str "october", str "10"), (str "november", str "11"), (str "december", str "12")]

/-- The current system month, supplied as an explicit pair
(`getFullYear()`, `getMonth() + 1`) since the embedding has no clock. -/
abbrev NowClock := Nat × Nat

/-- `String(month).padStart(2, '0')`. -/
def pad2 (n : Nat) : Str :=
  let d := natToStr n
  List.replicate (2 - d.length) '0' ++ d

/-- The fallback branch of `convertPeriodToCode`: the current system month's
code, together with the `console.warn` flag. -/
def currentMonthCode (now : NowClock) : Str :=
  natToStr now.1 ++ pad2 now.2

/-- `convertPeriodToCode`. The returned Boolean records whether the warning
branch was taken (`console.warn` + fallback to the current month). The source:
match `^\d{6}$` and return the input as-is; else lowercase, trim, split on
whitespace into exactly two tokens, look the first up in `monthMap` and check
the second against `^\d{4}$`; else warn and fall back to the current month. -/
def convertPeriodToCode (now : NowClock) (period : Str) : Str × Bool :=
  if period.length = 6 ∧ period.all Char.isDigit then (period, false)
  else
    match jsSplitWs (jsTrim (period.map Char.toLower)) with
    | [monthName, year] =>
      match List.lookup monthName monthMap with
      | some monthCode =>
        if year.length = 4 ∧ year.all Char.isDigit then (year ++ monthCode, false)
        else (currentMonthCode now, true)
      | none => (currentMonthCode now, true)
    | _ => (currentMonthCode now, true)

/-- JS `x || 0` on an optionally-present numeric property. -/
def jsOrZero (o : Option ℚ) : ℚ :=
  match o with
  | some v => if v = 0 then 0 else v
  | none => 0

/-- The row predicate of `getBudgetDataForPeriod`'s `.filter`: discard the row
when a team filter is supplied (a truthy, i.e. non-empty, string) and the raw
team field differs from it; keep it only if `monthlyHours[periodCode]` is
present (`!== undefined`). -/
def keepBudgetRow (teamFilter : Option Str) (periodCode : Str)
    (item : ProcessedBudgetData) : Bool :=
  match teamFilter with
  | some t => if t ≠ [] ∧ item.team ≠ t then false
              else (List.lookup periodCode item.monthlyHours).isSome
  | none => (List.lookup periodCode item.monthlyHours).isSome

/-- `getBudgetDataForPeriod` (pure part, after the file read): convert the
period, filter by the optional team and by presence of the period column, and
override `totalHours` with `monthlyHours[periodCode] || 0`. -/
def getBudgetDataForPeriod (now : NowClock) (processedData : List ProcessedBudgetData)
    (period : Str) (teamFilter : Option Str) : List ProcessedBudgetData :=
  let periodCode := (convertPeriodToCode now period).1
  (processedData.filter (keepBudgetRow teamFilter periodCode)).map
    (fun item =>
      { item with totalHours := jsOrZero (List.lookup periodCode item.monthlyHours) })

/- ===== connection.ts / executiveSummaryData.ts ===== -/

/-- One row of the relational fact source joined with the employee dimension,
as seen by the query of `fetchBilledHoursData`. -/
structure HarvestRow where
  EmployeeName : Str
  EmployeeID_EmployeeNiv1 : Str
  Hours : ℚ
  IsBillableKey : Int
  Date : Str
  DW_ID : Nat
  DW_Batch_Created : Nat
  deriving DecidableEq, Inhabited

/-- One result row of the billed-hours query (`DatabaseEmployeeData`). -/
structure DatabaseEmployeeData where
  EmployeeName : Str
  EmployeeID_EmployeeNiv1 : Str
  BillableHours : ℚ
  deriving DecidableEq, Inhabited

/-- The fixed universe of recognized team-storage identifiers hard-coded in
the query's `IN ('CST3', 'CST4', 'CST5')` clause. -/
def recognizedTeams : List Str := [str "CST3", str "CST4", str "CST5"]

/-- The `LatestEntries` CTE filter: `Hours > 0` and team in the fixed
universe. -/
def harvestRowAdmitted (r : HarvestRow) : Bool :=
  decide (0 < r.Hours) && recognizedTeams.contains r.EmployeeID_EmployeeNiv1

/-- `ROW_NUMBER() OVER (PARTITION BY DW_ID ORDER BY DW_Batch_Created DESC)`
followed by `RowNum = 1`: keep, per `DW_ID`, the first row in list position
order among those with the maximal `DW_Batch_Created` (ties broken by
position, as some single row is kept per partition). -/
def latestPerEntry (l : List HarvestRow) : List HarvestRow :=
  (l.enum.filter (fun p =>
    decide (∀ q ∈ l.enum, q.2.DW_ID = p.2.DW_ID →
      q.2.DW_Batch_Created < p.2.DW_Batch_Created ∨
      (q.2.DW_Batch_Created = p.2.DW_Batch_Created ∧ p.1 ≤ q.1)))).map Prod.snd

/-- `SUM(CASE WHEN IsBillableKey = 1 THEN Hours ELSE 0 END)`. -/
def billablePart (r : HarvestRow) : ℚ :=
  if r.IsBillableKey = 1 then r.Hours else 0

/-- The query of `fetchBilledHoursData`, over the fact table `rows`: take the
latest revision of each entry among admitted rows, restrict to dates matching
`periodCode%`, and group by (employee name, team id) summing the billable
hours. The period argument is first normalized with `convertPeriodToCode`.
Note the function takes no team filter: the only team restriction is the fixed
`recognizedTeams` universe. -/
def fetchBilledHoursData (now : NowClock) (rows : List HarvestRow)
    (period : Str) : List DatabaseEmployeeData :=
  let periodCode := (convertPeriodToCode now period).1
  let latest := latestPerEntry (rows.filter harvestRowAdmitted)
  let inPeriod := latest.filter (fun r => periodCode.isPrefixOf r.Date)
  let keys := (inPeriod.map (fun r => (r.EmployeeName, r.EmployeeID_EmployeeNiv1))).dedup
  keys.map (fun k =>
    { EmployeeName := k.1
      EmployeeID_EmployeeNiv1 := k.2
      BillableHours := ((inPeriod.filter (fun r =>
        r.EmployeeName = k.1 ∧ r.EmployeeID_EmployeeNiv1 = k.2)).map billablePart).sum })

/-- The join result for one employee (`EmployeeAnalysis`). -/
structure EmployeeAnalysis where
  initials : Str
  fullName : Str
  team : Str
  budgetedHours : ℚ
  billedHours : ℚ
  variance : ℚ
  variancePercentage : ℚ
  deriving DecidableEq, Inhabited

/-- The body of `matchEmployeeData`'s loop for one database employee, with the
surrounding per-record `try`/`catch`: a thrown initials parse or team
conversion gives `none` (caught and logged), a join miss gives `none`
(warned), and a match computes the variance fields. -/
def analyzeOne (budgetData : List ProcessedBudgetData)
    (dbEmployee : DatabaseEmployeeData) : Option EmployeeAnalysis :=
  match extractInitials dbEmployee.EmployeeName with
  | none => none
  | some initials =>
    match budgetData.find? (fun budget => budget.employee == initials) with
    | none => none
    | some budgetEntry =>
      match formatTeamNameForDisplay dbEmployee.EmployeeID_EmployeeNiv1 with
      | none => none
      | some team =>
        let budgetedHours := budgetEntry.totalHours
        let billedHours := dbEmployee.BillableHours
        let variance := billedHours - budgetedHours
        let variancePercentage :=
          if 0 < budgetedHours then (variance / budgetedHours) * 100 else 0
        some
          { initials := initials
            fullName := dbEmployee.EmployeeName
            team := team
            budgetedHours := budgetedHours
            billedHours := billedHours
            variance := variance
            variancePercentage := variancePercentage }

/-- `matchEmployeeData`: the loop pushes, in database order, one analysis
entry per database employee whose record survives `analyzeOne`. -/
def matchEmployeeData (databaseData : List DatabaseEmployeeData)
    (budgetData : List ProcessedBudgetData) : List EmployeeAnalysis :=
  databaseData.filterMap (analyzeOne budgetData)

/-- The per-team accumulator of `generateTeamSummary`. -/
structure TeamStats where
  budgeted : ℚ
  billed : ℚ
  variance : ℚ
  employeeCount : Nat
  deriving DecidableEq, Inhabited

/-- Insert one employee into the team-summary object: initialize the team's
entry on first encounter (appended, preserving insertion order) and add the
employee's hours and count. -/
def bumpTeam (employee : EmployeeAnalysis) :
    List (Str × TeamStats) → List (Str × TeamStats)
  | [] => [(employee.team,
      { budgeted := employee.budgetedHours
        billed := employee.billedHours
        variance := employee.variance
        employeeCount := 1 })]
  | (t, s) :: rest =>
    if t = employee.team then
      (t, { budgeted := s.budgeted + employee.budgetedHours
            billed := s.billed + employee.billedHours
            variance := s.variance + employee.variance
            employeeCount := s.employeeCount + 1 }) :: rest
    else (t, s) :: bumpTeam employee rest

/-- `generateTeamSummary`: fold the employees into the (insertion-ordered)
team-summary object. -/
def generateTeamSummary (employeeAnalysis : List EmployeeAnalysis) :
    List (Str × TeamStats) :=
  employeeAnalysis.foldl (fun acc e => bumpTeam e acc) []

/-- The top-level analysis result (`ExecutiveSummaryData`). -/
structure ExecutiveSummaryData where
  totalBudgeted : ℚ
  totalBilled : ℚ
  budgetVariance : ℚ
  utilizationRate : ℚ
  employeeAnalysis : List EmployeeAnalysis
  teamSummary : List (Str × TeamStats)
  deriving DecidableEq, Inhabited

/-- The pure tail of `getExecutiveSummaryAnalysis`, after both fetches have
delivered: join, total the reductions, guard the utilization ratio, and attach
the team summary. -/
def summarizeAnalysis (databaseData : List DatabaseEmployeeData)
    (processedBudgetData : List ProcessedBudgetData) : ExecutiveSummaryData :=
  let employeeAnalysis := matchEmployeeData databaseData processedBudgetData
  let totalBudgeted := (employeeAnalysis.map (fun e => e.budgetedHours)).sum
  let totalBilled := (employeeAnalysis.map (fun e => e.billedHours)).sum
  let budgetVariance := totalBilled - totalBudgeted
  let utilizationRate :=
    if 0 < totalBudgeted then (totalBilled / totalBudgeted) * 100 else 0
  { totalBudgeted := totalBudgeted
    totalBilled := totalBilled
    budgetVariance := budgetVariance
    utilizationRate := utilizationRate
    employeeAnalysis := employeeAnalysis
    teamSummary := generateTeamSummary employeeAnalysis }

/-- `getExecutiveSummaryAnalysis`: the two source fetches are modelled by
their delivered outcomes (`Except` = success or typed failure); a failed fetch
is re-thrown to the caller, a successful pair is summarized. -/
def getExecutiveSummaryAnalysis
    (databaseFetch : Except Str (List DatabaseEmployeeData))
    (budgetFetch : Except Str (List ProcessedBudgetData)) :
    Except Str ExecutiveSummaryData := do
  let databaseData ← databaseFetch
  let processedBudgetData ← budgetFetch
  pure (summarizeAnalysis databaseData processedBudgetData)

/- ===== executive-summary.ts (tool layer) ===== -/

/-- The structured object the `getExecutiveSummary` tool returns to the chat
layer. The narrative fields (`recommendations`, `alerts`, `keyMetrics`,
`errorMessage`) are elided; the numeric and structural fields are modelled. -/
structure ToolResult where
  period : Str
  team : Option Str
  error : Bool
  totalBudgeted : ℚ
  totalBilled : ℚ
  budgetVariance : ℚ
  utilizationRate : ℚ
  employeeAnalysis : List EmployeeAnalysis
  teamSummary : List (Str × TeamStats)
  deriving DecidableEq, Inhabited

/-- The result assembly of the tool's `execute` on the success path: totals
and `utilizationRate` are passed through from the analysis, but the
`budgetVariance` field is assigned `variancePercentage`, the overall variance
as a percentage of `totalBudgeted` (0-guarded). -/
def executeSuccessResult (period : Str) (team : Option Str)
    (analysisData : ExecutiveSummaryData) : ToolResult :=
  let variancePercentage :=
    if 0 < analysisData.totalBudgeted then
      (analysisData.budgetVariance / analysisData.totalBudgeted) * 100
    else 0
  { period := period
    team := team
    error := false
    totalBudgeted := analysisData.totalBudgeted
    totalBilled := analysisData.totalBilled
    budgetVariance := variancePercentage
    utilizationRate := analysisData.utilizationRate
    employeeAnalysis := analysisData.employeeAnalysis
    teamSummary := analysisData.teamSummary }

/-- The tool's `execute`, given the outcome of
`getExecutiveSummaryAnalysis(period)` — note the call site passes only the
period, dropping the `team` argument. A thrown analysis is caught and turned
into the zeroed fallback object with `error: true`; nothing is re-thrown. -/
def executeGetExecutiveSummary (period : Str) (team : Option Str)
    (analysisOutcome : Except Str ExecutiveSummaryData) : ToolResult :=
  match analysisOutcome with
  | .ok analysisData => executeSuccessResult period team analysisData
  | .error _ =>
    { period := period
      team := team
      error := true
      totalBudgeted := 0
      totalBilled := 0
      budgetVariance := 0
      utilizationRate := 0
      employeeAnalysis := []
      teamSummary := [] }

/- ===== Specification-side definitions for the team summary ===== -/

/-- Componentwise sum of two team accumulators. -/
def addStats (s t : TeamStats) : TeamStats :=
  { budgeted := s.budgeted + t.budgeted
    billed := s.billed + t.billed
    variance := s.variance + t.variance
    employeeCount := s.employeeCount + t.employeeCount }

/-- The specification value of one team's summary entry: componentwise sums
of the hours fields over that team's employees, plus their count. -/
def teamFilterSums (t : Str) (l : List EmployeeAnalysis) : TeamStats :=
  { budgeted := ((l.filter (fun e => e.team == t)).map (fun e => e.budgetedHours)).sum
    billed := ((l.filter (fun e => e.team == t)).map (fun e => e.billedHours)).sum
    variance := ((l.filter (fun e => e.team == t)).map (fun e => e.variance)).sum
    employeeCount := (l.filter (fun e => e.team == t)).length }

/-- The team-stats contribution of a single employee. -/
def statsOf (e : EmployeeAnalysis) : TeamStats :=
  { budgeted := e.budgetedHours
    billed := e.billedHours
    variance := e.variance
    employeeCount := 1 }

/- ===== Concrete fixtures used by witnesses and counterexamples ===== -/

/-- Fixture: actuals row for employee `ABC`, billed 120 hours. -/
def dbABC : DatabaseEmployeeData :=
  { EmployeeName := str "ABC - Ann Bee", EmployeeID_EmployeeNiv1 := str "CST3",
    BillableHours := 120 }

/-- Fixture: budget record for employee `ABC`, 100 hours in `202505`. -/
def budABC : ProcessedBudgetData :=
  { team := str "CST III", description := str "W", employee := str "ABC",
    taskId := str "T1", monthlyHours := [(str "202505", 100)], totalHours := 100 }

/-- Fixture: a second budget record for employee `ABC` (another task row),
50 hours in `202505`. -/
def budABC2 : ProcessedBudgetData :=
  { team := str "CST III", description := str "W2", employee := str "ABC",
    taskId := str "T2", monthlyHours := [(str "202505", 50)], totalHours := 50 }

/-- Fixture: the analysis entry produced for `dbABC` joined with `budABC`. -/
def entryABC : EmployeeAnalysis :=
  { initials := str "ABC", fullName := str "ABC - Ann Bee", team := str "CST III",
    budgetedHours := 100, billedHours := 120, variance := 20,
    variancePercentage := 20 }

/-- Fixture: actuals row for employee `AB`, billed 220 hours. -/
def dbAB : DatabaseEmployeeData :=
  { EmployeeName := str "AB - Bo Cee", EmployeeID_EmployeeNiv1 := str "CST3",
    BillableHours := 220 }

/-- Fixture: budget record for employee `AB`, 200 hours in `202505`. -/
def budAB : ProcessedBudgetData :=
  { team := str "CST III", description := str "W", employee := str "AB",
    taskId := str "T1", monthlyHours := [(str "202505", 200)], totalHours := 200 }

/-- Fixture: the analysis entry produced for `dbAB` joined with `budAB`
(variance 20 hours, variance percentage 10). -/
def entryAB : EmployeeAnalysis :=
  { initials := str "AB", fullName := str "AB - Bo Cee", team := str "CST III",
    budgetedHours := 200, billedHours := 220, variance := 20,
    variancePercentage := 10 }

/-- Fixture: actuals row with a malformed employee name (no hyphen). -/
def dbBad : DatabaseEmployeeData :=
  { EmployeeName := str "NOHYPHEN", EmployeeID_EmployeeNiv1 := str "CST3",
    BillableHours := 10 }

/-- Fixture: actuals row whose raw name has an empty name segment after the
hyphen (`"ABC - "`): malformed per the spec, yet its initials parse. -/
def dbEmptySeg : DatabaseEmployeeData :=
  { EmployeeName := str "ABC - ", EmployeeID_EmployeeNiv1 := str "CST3",
    BillableHours := 120 }

/-- Fixture: the analysis entry produced for `dbEmptySeg` joined with
`budABC` — the record is analyzed normally, raw name and all. -/
def entryEmptySeg : EmployeeAnalysis :=
  { initials := str "ABC", fullName := str "ABC - ", team := str "CST III",
    budgetedHours := 100, billedHours := 120, variance := 20,
    variancePercentage := 20 }

/-- Fixture: actuals row whose raw name has a lowercase/uppercase-mixed full
name after the hyphen. -/
def dbJohn : DatabaseEmployeeData :=
  { EmployeeName := str "ABC - john DOE", EmployeeID_EmployeeNiv1 := str "CST3",
    BillableHours := 120 }

/-- Fixture: the analysis entry produced for `dbJohn` joined with `budABC`. -/
def entryJohn : EmployeeAnalysis :=
  { initials := str "ABC", fullName := str "ABC - john DOE", team := str "CST III",
    budgetedHours := 100, billedHours := 120, variance := 20,
    variancePercentage := 20 }

/-- Fixture: actuals row of the first same-team employee, billed 110 hours. -/
def dbAAA : DatabaseEmployeeData :=
  { EmployeeName := str "AAA - A One", EmployeeID_EmployeeNiv1 := str "CST3",
    BillableHours := 110 }

/-- Fixture: actuals row of the second same-team employee, billed 180 hours. -/
def dbBBB : DatabaseEmployeeData :=
  { EmployeeName := str "BBB - B Two", EmployeeID_EmployeeNiv1 := str "CST3",
    BillableHours := 180 }

/-- Fixture: budget record of the first same-team employee, 100 hours. -/
def budAAA : ProcessedBudgetData :=
  { team := str "CST III", description := str "W", employee := str "AAA",
    taskId := str "T1", monthlyHours := [(str "202505", 100)], totalHours := 100 }

/-- Fixture: budget record of the second same-team employee, 200 hours. -/
def budBBB : ProcessedBudgetData :=
  { team := str "CST III", description := str "W", employee := str "BBB",
    taskId := str "T2", monthlyHours := [(str "202505", 200)], totalHours := 200 }

/-- Fixture: the two same-team actuals rows. -/
def dbTeamPair : List DatabaseEmployeeData := [dbAAA, dbBBB]

/-- Fixture: the two same-team budget records. -/
def budTeamPair : List ProcessedBudgetData := [budAAA, budBBB]

/-- Fixture: analysis entry for the first same-team employee (100 budgeted /
110 billed). -/
def entryAAA : EmployeeAnalysis :=
  { initials := str "AAA", fullName := str "AAA - A One", team := str "CST III",
    budgetedHours := 100, billedHours := 110, variance := 10,
    variancePercentage := 10 }

/-- Fixture: analysis entry for the second same-team employee (200 budgeted /
180 billed). -/
def entryBBB : EmployeeAnalysis :=
  { initials := str "BBB", fullName := str "BBB - B Two", team := str "CST III",
    budgetedHours := 200, billedHours := 180, variance := -20,
    variancePercentage := -10 }

/- ===== Helper lemmas ===== -/

/-- Characterization of a successful `analyzeOne`: the record's initials
parse, the first matching budget record in list order is found, the team
converts, and every field of the produced entry is determined by them. -/
theorem analyzeOne_eq_some {budgetData : List ProcessedBudgetData}
    {dbEmployee : DatabaseEmployeeData} {a : EmployeeAnalysis}
    (h : analyzeOne budgetData dbEmployee = some a) :
    ∃ initials budgetEntry team,
      extractInitials dbEmployee.EmployeeName = some initials ∧
      budgetData.find? (fun budget => budget.employee == initials) = some budgetEntry ∧
      formatTeamNameForDisplay dbEmployee.EmployeeID_EmployeeNiv1 = some team ∧
      a = { initials := initials
            fullName := dbEmployee.EmployeeName
            team := team
            budgetedHours := budgetEntry.totalHours
            billedHours := dbEmployee.BillableHours
            variance := dbEmployee.BillableHours - budgetEntry.totalHours
            variancePercentage :=
              if 0 < budgetEntry.totalHours then
                ((dbEmployee.BillableHours - budgetEntry.totalHours) /
                  budgetEntry.totalHours) * 100
              else 0 } := by
  unfold analyzeOne at h
  split at h
  · exact absurd h (by simp)
  rename_i initials hi
  split at h
  · exact absurd h (by simp)
  rename_i budgetEntry hf
  split at h
  · exact absurd h (by simp)
  rename_i team ht
  exact ⟨initials, budgetEntry, team, hi, hf, ht, (Option.some.inj h).symm⟩

/- ===== Claims ===== -/

/-- C1: for every actuals employee whose normalized initials match a budget
record, the resulting `EmployeeAnalysis` entry satisfies
`variance = billedHours − budgetedHours` and
`variancePercentage = (variance / budgetedHours) × 100` when
`budgetedHours > 0` and `0` when `budgetedHours = 0`. -/
theorem c1_variance_formula (databaseData : List DatabaseEmployeeData)
    (budgetData : List ProcessedBudgetData) (a : EmployeeAnalysis)
    (ha : a ∈ matchEmployeeData databaseData budgetData) :
    a.variance = a.billedHours - a.budgetedHours ∧
    a.variancePercentage =
      (if 0 < a.budgetedHours then (a.variance / a.budgetedHours) * 100 else 0) := by
  obtain ⟨db, _, h⟩ := List.mem_filterMap.mp ha
  obtain ⟨initials, budgetEntry, team, _, _, _, rfl⟩ := analyzeOne_eq_some h
  exact ⟨rfl, rfl⟩

/-- Evaluation rule: `analyzeOne` succeeds when its three steps succeed. -/
theorem analyzeOne_some_of {budgetData : List ProcessedBudgetData}
    {dbEmployee : DatabaseEmployeeData} (initials : Str)
    (budgetEntry : ProcessedBudgetData) (team : Str)
    (hi : extractInitials dbEmployee.EmployeeName = some initials)
    (hf : budgetData.find? (fun budget => budget.employee == initials) = some budgetEntry)
    (ht : formatTeamNameForDisplay dbEmployee.EmployeeID_EmployeeNiv1 = some team) :
    analyzeOne budgetData dbEmployee =
      some { initials := initials
             fullName := dbEmployee.EmployeeName
             team := team
             budgetedHours := budgetEntry.totalHours
             billedHours := dbEmployee.BillableHours
             variance := dbEmployee.BillableHours - budgetEntry.totalHours
             variancePercentage :=
               if 0 < budgetEntry.totalHours then
                 ((dbEmployee.BillableHours - budgetEntry.totalHours) /
                   budgetEntry.totalHours) * 100
               else 0 } := by
  unfold analyzeOne
  simp only [hi, hf, ht]

/-- Evaluation rule: `analyzeOne` skips a record whose name fails to parse. -/
theorem analyzeOne_none_of_bad_name {budgetData : List ProcessedBudgetData}
    {dbEmployee : DatabaseEmployeeData}
    (hi : extractInitials dbEmployee.EmployeeName = none) :
    analyzeOne budgetData dbEmployee = none := by
  unfold analyzeOne
  rw [hi]

/-- Evaluation rule: `matchEmployeeData` unfolds one database record. -/
theorem matchEmployeeData_cons (db : DatabaseEmployeeData)
    (rest : List DatabaseEmployeeData) (budgetData : List ProcessedBudgetData) :
    matchEmployeeData (db :: rest) budgetData =
      match analyzeOne budgetData db with
      | some a => a :: matchEmployeeData rest budgetData
      | none => matchEmployeeData rest budgetData := by
  unfold matchEmployeeData
  rw [List.filterMap_cons]
  cases analyzeOne budgetData db <;> rfl


/-- C1 witness: an employee budgeted 100 hours and billed 120 hours in the
same period yields `variance = 20` and `variancePercentage = 20`. -/
theorem c1_variance_formula_witness :
    entryABC ∈ matchEmployeeData [dbABC] [budABC] ∧
    entryABC.variance = 20 ∧ entryABC.variancePercentage = 20 ∧
    entryABC.variance = entryABC.billedHours - entryABC.budgetedHours ∧
    entryABC.variancePercentage =
      (if 0 < entryABC.budgetedHours then
        (entryABC.variance / entryABC.budgetedHours) * 100 else 0) := by
  have hmem : entryABC ∈ matchEmployeeData [dbABC] [budABC] := by
    rw [matchEmployeeData_cons,
      analyzeOne_some_of (str "ABC") budABC
        (str "CST III") (by decide) (by decide) (by decide)]
    simp only [entryABC, dbABC, budABC, List.mem_cons, List.mem_singleton,
      EmployeeAnalysis.mk.injEq]
    norm_num
  exact ⟨hmem, rfl, rfl, (c1_variance_formula _ _ _ hmem).1,
    (c1_variance_formula _ _ _ hmem).2⟩

/-- C6: `periodToCode` returns any 6-digit input unchanged; an input that
splits on whitespace into a month name (case-insensitive) and a 4-digit year
yields the `YYYYMM` code; every other shape does not fail but takes the
warning branch and returns the current system month's code. -/
theorem c6_period_to_code (now : NowClock) :
    (∀ s : Str, s.length = 6 → s.all Char.isDigit = true →
      convertPeriodToCode now s = (s, false)) ∧
    (∀ s monthName year monthCode : Str,
      ¬ (s.length = 6 ∧ s.all Char.isDigit = true) →
      jsSplitWs (jsTrim (s.map Char.toLower)) = [monthName, year] →
      List.lookup monthName monthMap = some monthCode →
      year.length = 4 → year.all Char.isDigit = true →
      convertPeriodToCode now s = (year ++ monthCode, false)) ∧
    (∀ s : Str, ¬ (s.length = 6 ∧ s.all Char.isDigit = true) →
      (∀ monthName year : Str,
        jsSplitWs (jsTrim (s.map Char.toLower)) = [monthName, year] →
        List.lookup monthName monthMap = none ∨
        ¬ (year.length = 4 ∧ year.all Char.isDigit = true)) →
      convertPeriodToCode now s = (currentMonthCode now, true)) := by
  refine ⟨?_, ?_, ?_⟩
  · intro s h1 h2
    unfold convertPeriodToCode
    rw [if_pos ⟨h1, h2⟩]
  · intro s monthName year monthCode hne hsplit hlook hy1 hy2
    unfold convertPeriodToCode
    rw [if_neg hne, hsplit]
    simp only [hlook]
    rw [if_pos ⟨hy1, hy2⟩]
  · intro s hne hshape
    unfold convertPeriodToCode
    rw [if_neg hne]
    cases hsplit : jsSplitWs (jsTrim (s.map Char.toLower)) with
    | nil => rfl
    | cons a t =>
      cases t with
      | nil => rfl
      | cons b t2 =>
        cases t2 with
        | cons c t3 => rfl
        | nil =>
          rcases hshape a b hsplit with hl | hy
          · simp only [hl]
          · cases hlook : List.lookup a monthMap with
            | none => simp only [hlook]
            | some mc =>
              simp only [hlook]
              rw [if_neg hy]

/-- C6 witness: `periodToCode "202505" = "202505"`,
`periodToCode "May 2025" = "202505"`, and `periodToCode "garbage"` takes the
warning branch and returns the current month's code (here 2026-10). -/
theorem c6_period_to_code_witness :
    convertPeriodToCode (2026, 10) (str "202505") = (str "202505", false) ∧
    convertPeriodToCode (2026, 10) (str "May 2025") = (str "202505", false) ∧
    convertPeriodToCode (2026, 10) (str "garbage") =
      (currentMonthCode (2026, 10), true) := by
  refine ⟨?_, ?_, ?_⟩
  · exact (c6_period_to_code (2026, 10)).1 (str "202505") (by decide) (by decide)
  · have h := (c6_period_to_code (2026, 10)).2.1 (str "May 2025")
      (str "may") (str "2025") (str "05") (by decide) (by decide) (by decide)
      (by decide) (by decide)
    rw [h]
    decide
  · exact (c6_period_to_code (2026, 10)).2.2 (str "garbage") (by decide)
      (fun monthName year hsplit => by
        rw [show jsSplitWs (jsTrim ((str "garbage").map Char.toLower)) =
          [str "garbage"] from by decide] at hsplit
        simp at hsplit)

/-- `x || 0` on an optional number is just the value, with 0 as default. -/
theorem jsOrZero_eq_getD (o : Option ℚ) : jsOrZero o = o.getD 0 := by
  cases o with
  | none => rfl
  | some v =>
    unfold jsOrZero
    by_cases h : v = 0 <;> simp [h]

/-- C7: with no team filter, the budget reader's result for a period code
contains exactly the processed records possessing a monthly-hours entry for
that period (a record lacking the period's column is excluded entirely), each
with `totalHours` overridden to that period's hours and `monthlyHours` (and
all other fields) left untouched. -/
theorem c7_budget_period_scoping (now : NowClock)
    (processedData : List ProcessedBudgetData) (period : Str)
    (r : ProcessedBudgetData) :
    r ∈ getBudgetDataForPeriod now processedData period none ↔
    ∃ src ∈ processedData,
      (List.lookup (convertPeriodToCode now period).1 src.monthlyHours).isSome = true ∧
      r = { src with totalHours :=
        (List.lookup (convertPeriodToCode now period).1 src.monthlyHours).getD 0 } := by
  unfold getBudgetDataForPeriod
  simp only [List.mem_map, List.mem_filter, keepBudgetRow]
  constructor
  · rintro ⟨src, ⟨hsrc, hkeep⟩, rfl⟩
    exact ⟨src, hsrc, hkeep, by rw [jsOrZero_eq_getD]⟩
  · rintro ⟨src, hsrc, hkeep, rfl⟩
    exact ⟨src, ⟨hsrc, hkeep⟩, by rw [jsOrZero_eq_getD]⟩

/-- C10: when an actuals employee's initials match more than one budget
record, the join takes the first matching record in the budget list's order —
which is file row order, since `readCsvFile` emits rows in line order and
`processBudgetData` / `getBudgetDataForPeriod` are order-preserving `map` /
`filter` — and the entry's `budgetedHours` is that single record's period
hours; the hours of the remaining matching records are not added. -/
theorem c10_first_match_only (now : NowClock)
    (processedData : List ProcessedBudgetData) (period : Str)
    (databaseData : List DatabaseEmployeeData) (a : EmployeeAnalysis)
    (ha : a ∈ matchEmployeeData databaseData
      (getBudgetDataForPeriod now processedData period none)) :
    ∃ rec : ProcessedBudgetData,
      List.find? (fun r => r.employee == a.initials)
        (processedData.filter
          (fun r =>
            (List.lookup (convertPeriodToCode now period).1 r.monthlyHours).isSome)) =
        some rec ∧
      a.budgetedHours =
        (List.lookup (convertPeriodToCode now period).1 rec.monthlyHours).getD 0 := by
  obtain ⟨db, _, h⟩ := List.mem_filterMap.mp ha
  obtain ⟨ini, be, tm, hi, hf, ht, rfl⟩ := analyzeOne_eq_some h
  unfold getBudgetDataForPeriod at hf
  rw [List.find?_map] at hf
  cases hfind : List.find?
      ((fun budget => budget.employee == ini) ∘ fun item =>
        { item with totalHours :=
            jsOrZero (List.lookup (convertPeriodToCode now period).1 item.monthlyHours) })
      (processedData.filter (keepBudgetRow none (convertPeriodToCode now period).1)) with
  | none => rw [hfind] at hf; cases hf
  | some rec =>
    rw [hfind] at hf
    have hbe := Option.some.inj hf
    refine ⟨rec, hfind, ?_⟩
    rw [← hbe]
    exact jsOrZero_eq_getD _

/-- C10 witness: employee `ABC` has two budget task rows (100 h and 50 h in
`202505`); the join picks the first (100 h), not the 150 h sum. -/
theorem c10_first_match_only_witness :
    entryABC ∈ matchEmployeeData [dbABC]
      (getBudgetDataForPeriod (2026, 10) [budABC, budABC2] (str "202505") none) ∧
    List.find? (fun r => r.employee == entryABC.initials)
      ([budABC, budABC2].filter
        (fun r =>
          (List.lookup (convertPeriodToCode (2026, 10) (str "202505")).1
            r.monthlyHours).isSome)) = some budABC ∧
    entryABC.budgetedHours =
      (List.lookup (convertPeriodToCode (2026, 10) (str "202505")).1
        budABC.monthlyHours).getD 0 := by
  have hb : getBudgetDataForPeriod (2026, 10) [budABC, budABC2] (str "202505") none =
      [budABC, budABC2] := by decide
  have hmem : entryABC ∈ matchEmployeeData [dbABC]
      (getBudgetDataForPeriod (2026, 10) [budABC, budABC2] (str "202505") none) := by
    rw [hb, matchEmployeeData_cons,
      analyzeOne_some_of (str "ABC") budABC
        (str "CST III") (by decide) (by decide) (by decide)]
    simp only [entryABC, dbABC, budABC, List.mem_cons, List.mem_singleton,
      EmployeeAnalysis.mk.injEq]
    norm_num
  obtain ⟨rec, hfind, hbud⟩ :=
    c10_first_match_only (2026, 10) [budABC, budABC2] (str "202505") [dbABC]
      entryABC hmem
  have hrec : rec = budABC := by
    rw [show List.find? (fun r => r.employee == entryABC.initials)
        ([budABC, budABC2].filter
          (fun r =>
            (List.lookup (convertPeriodToCode (2026, 10) (str "202505")).1
              r.monthlyHours).isSome)) = some budABC from by decide] at hfind
    exact (Option.some.inj hfind).symm
  exact ⟨hmem, by decide, by rw [hrec] at hbud; exact hbud⟩

/-- C3 counterexample: neither class of malformed name propagates a typed
failure. A record with no hyphen (`"NOHYPHEN"`) fails `extractInitials`, yet
the reconciliation returns success and continues over the remaining record;
and a record with an empty name segment after the hyphen (`"ABC - "`) — also
malformed per the claim — is not even skipped: its initials parse, it is
analyzed normally with the raw name as `fullName`, and the reconciliation
again returns success. -/
theorem c3_counterexample_swallowed :
    extractInitials (str "NOHYPHEN") = none ∧
    (getExecutiveSummaryAnalysis (.ok [dbBad, dbABC]) (.ok [budABC])).isOk = true ∧
    ((getExecutiveSummaryAnalysis (.ok [dbBad, dbABC]) (.ok [budABC])).toOption.map
      (fun d => d.employeeAnalysis.length)) = some 1 ∧
    extractFullName (str "ABC - ") = none ∧
    extractInitials (str "ABC - ") = some (str "ABC") ∧
    (getExecutiveSummaryAnalysis (.ok [dbEmptySeg]) (.ok [budABC])).isOk = true ∧
    ((getExecutiveSummaryAnalysis (.ok [dbEmptySeg]) (.ok [budABC])).toOption.map
      (fun d => d.employeeAnalysis.map (fun a => a.fullName))) =
      some [str "ABC - "] := by
  refine ⟨by decide, ?_, ?_, by decide, by decide, ?_, ?_⟩ <;> decide

/-- C3 amended: no malformed employee name propagates a typed failure to the
caller. A record whose raw name lacks a hyphen or has an empty initials
segment — so that `extractInitials` throws — is skipped with a logged
diagnostic while the analysis continues, leaving the result as if the record
were absent; a record whose name segment after the hyphen is empty is not
detected as malformed at all (only the initials are ever parsed): it is
joined normally, producing an ordinary analysis entry with the raw string as
its `fullName`. -/
theorem c3_amended_parse_failure_skipped :
    (∀ (bad : DatabaseEmployeeData), extractInitials bad.EmployeeName = none →
      ∀ (rest : List DatabaseEmployeeData) (budget : List ProcessedBudgetData),
        getExecutiveSummaryAnalysis (.ok (bad :: rest)) (.ok budget) =
          getExecutiveSummaryAnalysis (.ok rest) (.ok budget) ∧
        (getExecutiveSummaryAnalysis (.ok (bad :: rest)) (.ok budget)).isOk = true) ∧
    (∀ (rec : DatabaseEmployeeData) (ini : Str) (be : ProcessedBudgetData)
        (tm : Str),
      extractInitials rec.EmployeeName = some ini →
      extractFullName rec.EmployeeName = none →
      ∀ (rest : List DatabaseEmployeeData) (budget : List ProcessedBudgetData),
        budget.find? (fun b => b.employee == ini) = some be →
        formatTeamNameForDisplay rec.EmployeeID_EmployeeNiv1 = some tm →
        matchEmployeeData (rec :: rest) budget =
          { initials := ini
            fullName := rec.EmployeeName
            team := tm
            budgetedHours := be.totalHours
            billedHours := rec.BillableHours
            variance := rec.BillableHours - be.totalHours
            variancePercentage :=
              if 0 < be.totalHours then
                ((rec.BillableHours - be.totalHours) / be.totalHours) * 100
              else 0 } :: matchEmployeeData rest budget ∧
        (getExecutiveSummaryAnalysis (.ok (rec :: rest)) (.ok budget)).isOk =
          true) := by
  constructor
  · intro bad hbad rest budget
    have hskip : matchEmployeeData (bad :: rest) budget =
        matchEmployeeData rest budget := by
      rw [matchEmployeeData_cons, analyzeOne_none_of_bad_name hbad]
    constructor
    · rw [show getExecutiveSummaryAnalysis (.ok (bad :: rest)) (.ok budget) =
          Except.ok (summarizeAnalysis (bad :: rest) budget) from rfl,
        show getExecutiveSummaryAnalysis (.ok rest) (.ok budget) =
          Except.ok (summarizeAnalysis rest budget) from rfl]
      have hsum : summarizeAnalysis (bad :: rest) budget =
          summarizeAnalysis rest budget := by
        unfold summarizeAnalysis
        rw [hskip]
      rw [hsum]
    · rfl
  · intro rec ini be tm hi _ rest budget hf ht
    refine ⟨?_, rfl⟩
    rw [matchEmployeeData_cons, analyzeOne_some_of ini be tm hi hf ht]

/-- C3 amended witness: the no-hyphen record `dbBad` is skipped and the
result equals the analysis without it, still a success; the empty-name-
segment record `dbEmptySeg` is analyzed normally into `entryEmptySeg`. -/
theorem c3_amended_parse_failure_skipped_witness :
    getExecutiveSummaryAnalysis (.ok [dbBad, dbABC]) (.ok [budABC]) =
      getExecutiveSummaryAnalysis (.ok [dbABC]) (.ok [budABC]) ∧
    (getExecutiveSummaryAnalysis (.ok [dbBad, dbABC]) (.ok [budABC])).isOk =
      true ∧
    matchEmployeeData [dbEmptySeg] [budABC] = [entryEmptySeg] ∧
    (getExecutiveSummaryAnalysis (.ok [dbEmptySeg]) (.ok [budABC])).isOk =
      true := by
  obtain ⟨ha1, ha2⟩ := c3_amended_parse_failure_skipped.1 dbBad (by decide)
    [dbABC] [budABC]
  obtain ⟨hb1, hb2⟩ := c3_amended_parse_failure_skipped.2 dbEmptySeg
    (str "ABC") budABC (str "CST III") (by decide) (by decide) [] [budABC]
    (by decide) (by decide)
  refine ⟨ha1, ha2, ?_, hb2⟩
  rw [hb1]
  show _ :: matchEmployeeData [] [budABC] = _
  simp only [matchEmployeeData, List.filterMap_nil, entryEmptySeg, dbEmptySeg,
    budABC, List.cons.injEq, EmployeeAnalysis.mk.injEq, and_true]
  norm_num

/-- C9 counterexample: for the raw source string `"ABC - john DOE"`, the
entry's `fullName` is the raw string itself, while the canonical full name
(text after the first hyphen, trimmed, each word capitalized) is
`"John Doe"` — a different string. -/
theorem c9_counterexample_raw_fullname :
    (matchEmployeeData [dbJohn] [budABC]).map (fun a => a.fullName) =
      [str "ABC - john DOE"] ∧
    (extractFullName (str "ABC - john DOE")).bind formatEmployeeNameForDisplay =
      some (str "John Doe") ∧
    str "ABC - john DOE" ≠ str "John Doe" := by
  refine ⟨by decide, by decide, by decide⟩

/-- C9 amended: for every matched employee, the `fullName` field of its
`EmployeeAnalysis` entry is the raw `INITIALS - FULL NAME` source string as
received from the database (whose initials segment parses to the entry's
initials), not the canonical title-cased name derived from it. -/
theorem c9_amended_raw_fullname (databaseData : List DatabaseEmployeeData)
    (budgetData : List ProcessedBudgetData) (a : EmployeeAnalysis)
    (ha : a ∈ matchEmployeeData databaseData budgetData) :
    ∃ dbe ∈ databaseData,
      extractInitials dbe.EmployeeName = some a.initials ∧
      a.fullName = dbe.EmployeeName := by
  obtain ⟨db, hdb, h⟩ := List.mem_filterMap.mp ha
  obtain ⟨ini, be, tm, hi, _, _, rfl⟩ := analyzeOne_eq_some h
  exact ⟨db, hdb, hi, rfl⟩

/-- C9 amended witness: the entry for `dbJohn` carries the raw string
`"ABC - john DOE"` as its `fullName`. -/
theorem c9_amended_raw_fullname_witness :
    entryJohn ∈ matchEmployeeData [dbJohn] [budABC] ∧
    ∃ dbe ∈ [dbJohn],
      extractInitials dbe.EmployeeName = some entryJohn.initials ∧
      entryJohn.fullName = dbe.EmployeeName := by
  have hmem : entryJohn ∈ matchEmployeeData [dbJohn] [budABC] := by
    rw [matchEmployeeData_cons,
      analyzeOne_some_of (str "ABC") budABC
        (str "CST III") (by decide) (by decide) (by decide)]
    simp only [entryJohn, dbJohn, budABC, List.mem_cons, List.mem_singleton,
      EmployeeAnalysis.mk.injEq]
    norm_num
  exact ⟨hmem, c9_amended_raw_fullname [dbJohn] [budABC] entryJohn hmem⟩

/-- C2 counterexample: with one employee budgeted 200 h and billed 220 h, the
engine's variance in hours is 20, but the result the tool delivers to the
caller reports `budgetVariance = 10` — the variance percentage, not the hours
difference `totalBilled − totalBudgeted`. -/
theorem c2_counterexample_variance_percentage :
    (executeGetExecutiveSummary (str "May 2025") none
      (getExecutiveSummaryAnalysis (.ok [dbAB]) (.ok [budAB]))).budgetVariance = 10 ∧
    (executeGetExecutiveSummary (str "May 2025") none
        (getExecutiveSummaryAnalysis (.ok [dbAB]) (.ok [budAB]))).totalBilled -
      (executeGetExecutiveSummary (str "May 2025") none
        (getExecutiveSummaryAnalysis (.ok [dbAB]) (.ok [budAB]))).totalBudgeted = 20 ∧
    (executeGetExecutiveSummary (str "May 2025") none
        (getExecutiveSummaryAnalysis (.ok [dbAB]) (.ok [budAB]))).budgetVariance ≠
      (executeGetExecutiveSummary (str "May 2025") none
          (getExecutiveSummaryAnalysis (.ok [dbAB]) (.ok [budAB]))).totalBilled -
        (executeGetExecutiveSummary (str "May 2025") none
          (getExecutiveSummaryAnalysis (.ok [dbAB]) (.ok [budAB]))).totalBudgeted := by
  have h1 : matchEmployeeData [dbAB] [budAB] = [entryAB] := by
    rw [matchEmployeeData_cons,
      analyzeOne_some_of (str "AB") budAB
        (str "CST III") (by decide) (by decide) (by decide)]
    show _ = [entryAB]
    simp only [entryAB, dbAB, budAB, matchEmployeeData, List.filterMap_nil,
      EmployeeAnalysis.mk.injEq, List.cons.injEq, and_true]
    norm_num
  have h2 : getExecutiveSummaryAnalysis (.ok [dbAB]) (.ok [budAB]) =
      Except.ok (summarizeAnalysis [dbAB] [budAB]) := rfl
  have h3 : (summarizeAnalysis [dbAB] [budAB]).totalBudgeted = 200 := by
    unfold summarizeAnalysis
    rw [h1]
    norm_num [entryAB]
  have h4 : (summarizeAnalysis [dbAB] [budAB]).totalBilled = 220 := by
    unfold summarizeAnalysis
    rw [h1]
    norm_num [entryAB]
  have h5 : (summarizeAnalysis [dbAB] [budAB]).budgetVariance = 20 := by
    unfold summarizeAnalysis
    rw [h1]
    norm_num [entryAB]
  rw [h2]
  show (executeSuccessResult _ _ _).budgetVariance = 10 ∧ _
  constructor
  · show (if 0 < (summarizeAnalysis [dbAB] [budAB]).totalBudgeted then
        ((summarizeAnalysis [dbAB] [budAB]).budgetVariance /
          (summarizeAnalysis [dbAB] [budAB]).totalBudgeted) * 100 else 0) = 10
    rw [h3, h5]
    norm_num
  constructor
  · show (summarizeAnalysis [dbAB] [budAB]).totalBilled -
      (summarizeAnalysis [dbAB] [budAB]).totalBudgeted = 20
    rw [h3, h4]
    norm_num
  · show (if 0 < (summarizeAnalysis [dbAB] [budAB]).totalBudgeted then
        ((summarizeAnalysis [dbAB] [budAB]).budgetVariance /
          (summarizeAnalysis [dbAB] [budAB]).totalBudgeted) * 100 else 0) ≠
      (summarizeAnalysis [dbAB] [budAB]).totalBilled -
        (summarizeAnalysis [dbAB] [budAB]).totalBudgeted
    rw [h3, h4, h5]
    norm_num

/-- C2 amended: the engine-level result satisfies all the claimed equations —
`totalBudgeted`/`totalBilled` are the sums over `employeeAnalysis`,
`budgetVariance = totalBilled − totalBudgeted` in hours, and
`utilizationRate` is the 0-guarded ratio (total functions on ℚ: no NaN, no
infinity, no throw) — but the result the chat tool delivers to the caller,
while passing the totals and `utilizationRate` through unchanged, reports in
its `budgetVariance` field the overall variance as a percentage of
`totalBudgeted` (0 when `totalBudgeted = 0`), not the hours difference. -/
theorem c2_amended_summary_equations (databaseData : List DatabaseEmployeeData)
    (budget : List ProcessedBudgetData) (period : Str) (team : Option Str)
    (d : ExecutiveSummaryData) (hd : d = summarizeAnalysis databaseData budget) :
    d.totalBudgeted = (d.employeeAnalysis.map (fun e => e.budgetedHours)).sum ∧
    d.totalBilled = (d.employeeAnalysis.map (fun e => e.billedHours)).sum ∧
    d.budgetVariance = d.totalBilled - d.totalBudgeted ∧
    d.utilizationRate =
      (if 0 < d.totalBudgeted then (d.totalBilled / d.totalBudgeted) * 100 else 0) ∧
    (executeGetExecutiveSummary period team (.ok d)).totalBudgeted = d.totalBudgeted ∧
    (executeGetExecutiveSummary period team (.ok d)).totalBilled = d.totalBilled ∧
    (executeGetExecutiveSummary period team (.ok d)).utilizationRate = d.utilizationRate ∧
    (executeGetExecutiveSummary period team (.ok d)).employeeAnalysis = d.employeeAnalysis ∧
    (executeGetExecutiveSummary period team (.ok d)).teamSummary = d.teamSummary ∧
    (executeGetExecutiveSummary period team (.ok d)).budgetVariance =
      (if 0 < d.totalBudgeted then (d.budgetVariance / d.totalBudgeted) * 100 else 0) := by
  subst hd
  exact ⟨rfl, rfl, rfl, rfl, rfl, rfl, rfl, rfl, rfl, rfl⟩

/-- C2 amended witness: instantiated at one employee budgeted 200 h and
billed 220 h. -/
theorem c2_amended_summary_equations_witness :
    (summarizeAnalysis [dbAB] [budAB]).budgetVariance =
      (summarizeAnalysis [dbAB] [budAB]).totalBilled -
        (summarizeAnalysis [dbAB] [budAB]).totalBudgeted ∧
    (executeGetExecutiveSummary (str "May 2025") none
        (.ok (summarizeAnalysis [dbAB] [budAB]))).budgetVariance =
      (if 0 < (summarizeAnalysis [dbAB] [budAB]).totalBudgeted then
        ((summarizeAnalysis [dbAB] [budAB]).budgetVariance /
          (summarizeAnalysis [dbAB] [budAB]).totalBudgeted) * 100 else 0) :=
  ⟨(c2_amended_summary_equations [dbAB] [budAB] (str "May 2025") none _ rfl).2.2.1,
   (c2_amended_summary_equations [dbAB] [budAB] (str "May 2025") none _
      rfl).2.2.2.2.2.2.2.2.2⟩

/-- Every row kept by the revision-dedup step comes from the input list. -/
theorem latestPerEntry_subset (l : List HarvestRow) (r : HarvestRow)
    (hr : r ∈ latestPerEntry l) : r ∈ l := by
  unfold latestPerEntry at hr
  simp only [List.mem_map, List.mem_filter] at hr
  obtain ⟨⟨i, r'⟩, ⟨hmem, _⟩, rfl⟩ := hr
  have := List.mem_enum_iff_getElem?.mp hmem
  exact List.getElem?_mem this

/-- C4 counterexample: an empty-string team filter supplied by the caller is
truthiness-discarded, so a budget record whose team (`CST III`) differs from
the filter string (`""`) is still kept — refuting "kept only when its raw
team field exactly equals the filter string". -/
theorem c4_counterexample_empty_filter :
    budABC ∈ getBudgetDataForPeriod (2026, 10) [budABC] (str "202505")
      (some (str "")) ∧
    budABC.team ≠ str "" := by
  exact ⟨by decide, by decide⟩

/-- C4 amended: for a non-empty team filter, the filter narrows only the
budget-side fetch — a budget record is kept only when its raw team field
exactly equals the filter string (an empty-string filter is treated as no
filter) — while the actuals fetch takes no team filter at all and restricts
its rows to the fixed universe of recognized team-storage identifiers
(CST3, CST4, CST5): every group it returns carries one of them. -/
theorem c4_amended_filter_scope (now : NowClock)
    (processedData : List ProcessedBudgetData) (period : Str) (t : Str)
    (ht : t ≠ []) :
    (∀ r ∈ getBudgetDataForPeriod now processedData period (some t), r.team = t) ∧
    (∀ (rows : List HarvestRow) (g : DatabaseEmployeeData),
      g ∈ fetchBilledHoursData now rows period →
      g.EmployeeID_EmployeeNiv1 ∈ recognizedTeams) := by
  constructor
  · intro r hr
    unfold getBudgetDataForPeriod at hr
    simp only [List.mem_map, List.mem_filter] at hr
    obtain ⟨item, ⟨_, hkeep⟩, rfl⟩ := hr
    show item.team = t
    simp only [keepBudgetRow] at hkeep
    by_cases hteam : item.team = t
    · exact hteam
    · rw [if_pos ⟨ht, hteam⟩] at hkeep
      cases hkeep
  · intro rows g hg
    unfold fetchBilledHoursData at hg
    simp only [List.mem_map] at hg
    obtain ⟨k, hk, rfl⟩ := hg
    rw [List.mem_dedup, List.mem_map] at hk
    obtain ⟨r, hr, rfl⟩ := hk
    have hr2 : r ∈ latestPerEntry (rows.filter harvestRowAdmitted) :=
      (List.mem_filter.mp hr).1
    have hr3 : r ∈ rows.filter harvestRowAdmitted := latestPerEntry_subset _ _ hr2
    have hadm : harvestRowAdmitted r = true := (List.mem_filter.mp hr3).2
    unfold harvestRowAdmitted at hadm
    have hcontains := (Bool.and_eq_true _ _).mp hadm |>.2
    exact List.mem_of_elem_eq_true hcontains

/-- C4 amended witness: with the filter `CST III`, the kept record's team is
`CST III`; the actuals fetch on a concrete fact row returns only groups with
a recognized team identifier. -/
theorem c4_amended_filter_scope_witness :
    budABC ∈ getBudgetDataForPeriod (2026, 10) [budABC] (str "202505")
      (some (str "CST III")) ∧
    budABC.team = str "CST III" ∧
    (fetchBilledHoursData (2026, 10)
        [{ EmployeeName := str "AB - Bo Cee", EmployeeID_EmployeeNiv1 := str "CST3",
           Hours := 8, IsBillableKey := 1, Date := str "20250512", DW_ID := 1,
           DW_Batch_Created := 1 }] (str "202505")).map
      (fun g => g.EmployeeID_EmployeeNiv1) = [str "CST3"] := by
  have hmem : budABC ∈ getBudgetDataForPeriod (2026, 10) [budABC] (str "202505")
      (some (str "CST III")) := by decide
  exact ⟨hmem,
    (c4_amended_filter_scope (2026, 10) [budABC] (str "202505") (str "CST III")
      (by decide)).1 budABC hmem,
    by decide⟩

/-- `addStats` with the zero accumulator on the left. -/
theorem addStats_zero_left (s : TeamStats) :
    addStats { budgeted := 0, billed := 0, variance := 0, employeeCount := 0 } s = s := by
  cases s
  simp [addStats]

/-- `addStats` with the zero accumulator on the right. -/
theorem addStats_zero_right (s : TeamStats) :
    addStats s { budgeted := 0, billed := 0, variance := 0, employeeCount := 0 } = s := by
  cases s
  simp [addStats]

/-- `addStats` is associative. -/
theorem addStats_assoc (a b c : TeamStats) :
    addStats (addStats a b) c = addStats a (addStats b c) := by
  cases a; cases b; cases c
  simp only [addStats, TeamStats.mk.injEq]
  refine ⟨by ring, by ring, by ring, by omega⟩

/-- `teamFilterSums` over nil is the zero accumulator. -/
theorem teamFilterSums_nil (t : Str) :
    teamFilterSums t [] =
      { budgeted := 0, billed := 0, variance := 0, employeeCount := 0 } := rfl

/-- `teamFilterSums` over a cons whose head is on team `t`. -/
theorem teamFilterSums_cons_eq (t : Str) (e : EmployeeAnalysis)
    (l : List EmployeeAnalysis) (he : e.team = t) :
    teamFilterSums t (e :: l) = addStats (statsOf e) (teamFilterSums t l) := by
  simp only [teamFilterSums, statsOf, addStats, List.filter_cons,
    beq_iff_eq.mpr he, if_true, List.map_cons, List.sum_cons, List.length_cons,
    TeamStats.mk.injEq]
  refine ⟨trivial, trivial, trivial, by omega⟩

/-- `teamFilterSums` over a cons whose head is on another team. -/
theorem teamFilterSums_cons_ne (t : Str) (e : EmployeeAnalysis)
    (l : List EmployeeAnalysis) (he : ¬ e.team = t) :
    teamFilterSums t (e :: l) = teamFilterSums t l := by
  simp [teamFilterSums, List.filter_cons, he]

/-- Lookup after inserting one employee into the summary object. -/
theorem lookup_bumpTeam (e : EmployeeAnalysis) (acc : List (Str × TeamStats))
    (t : Str) :
    List.lookup t (bumpTeam e acc) =
      if t = e.team then
        some (addStats
          ((List.lookup t acc).getD
            { budgeted := 0, billed := 0, variance := 0, employeeCount := 0 })
          (statsOf e))
      else List.lookup t acc := by
  induction acc with
  | nil =>
    by_cases h : t = e.team
    · have hb : (t == e.team) = true := beq_iff_eq.mpr h
      simp [bumpTeam, List.lookup, hb, h, addStats, statsOf]
    · have hb : (t == e.team) = false := beq_eq_false_iff_ne.mpr h
      simp [bumpTeam, List.lookup, hb, h]
  | cons p rest ih =>
    obtain ⟨k, s⟩ := p
    by_cases hk : k = e.team
    · have hbump : bumpTeam e ((k, s) :: rest) =
          (k, addStats s (statsOf e)) :: rest := by
        simp [bumpTeam, hk, addStats, statsOf]
      rw [hbump]
      by_cases h : t = k
      · have hb : (t == k) = true := beq_iff_eq.mpr h
        have h2 : t = e.team := h.trans hk
        have hb2 : (e.team == k) = true := beq_iff_eq.mpr (h2.symm.trans h)
        simp [List.lookup, hb, hb2, h2]
      · have hb : (t == k) = false := beq_eq_false_iff_ne.mpr h
        have h2 : ¬ t = e.team := fun hc => h (hc.trans hk.symm)
        simp [List.lookup, hb, h2]
    · have hbump : bumpTeam e ((k, s) :: rest) = (k, s) :: bumpTeam e rest := by
        simp [bumpTeam, hk]
      rw [hbump]
      by_cases h : t = k
      · have hb : (t == k) = true := beq_iff_eq.mpr h
        have h2 : ¬ t = e.team := fun hc => hk (h.symm.trans hc)
        simp [List.lookup, hb, h2]
      · have hb : (t == k) = false := beq_eq_false_iff_ne.mpr h
        simp only [List.lookup, hb, cond_false]
        rw [ih]

/-- Lookup in the folded summary object, for an arbitrary accumulator. -/
theorem lookup_foldl_bumpTeam (l : List EmployeeAnalysis) :
    ∀ (acc : List (Str × TeamStats)) (t : Str),
      List.lookup t (l.foldl (fun acc e => bumpTeam e acc) acc) =
        match List.lookup t acc with
        | some s => some (addStats s (teamFilterSums t l))
        | none =>
          if (l.filter (fun e => e.team == t)).length = 0 then none
          else some (teamFilterSums t l) := by
  induction l with
  | nil =>
    intro acc t
    cases h : List.lookup t acc with
    | none => simp [h]
    | some s => simp [List.foldl, h, teamFilterSums_nil, addStats_zero_right]
  | cons e l ih =>
    intro acc t
    rw [List.foldl_cons, ih (bumpTeam e acc) t, lookup_bumpTeam]
    by_cases ht : t = e.team
    · have hteq : e.team = t := ht.symm
      have hbeq : (e.team == t) = true := beq_iff_eq.mpr hteq
      rw [if_pos ht]
      cases h : List.lookup t acc with
      | none =>
        simp only [h, Option.getD_none]
        rw [teamFilterSums_cons_eq t e l hteq]
        simp [List.filter_cons, hbeq, addStats_zero_left, addStats_assoc]
      | some s =>
        simp only [h, Option.getD_some]
        rw [teamFilterSums_cons_eq t e l hteq]
        simp [List.filter_cons, hbeq, addStats_assoc]
    · have hbeq : (e.team == t) = false :=
        beq_eq_false_iff_ne.mpr (fun hc => ht hc.symm)
      rw [if_neg ht, teamFilterSums_cons_ne t e l (fun hc => ht hc.symm)]
      simp [List.filter_cons, hbeq]

/-- Summing a field of the summary object after one insertion adds the
employee's contribution, for any field assignment `f` compatible with
`addStats`/`statsOf`. -/
theorem sum_map_bumpTeam (f : TeamStats → ℚ) (g : EmployeeAnalysis → ℚ)
    (hf : ∀ (s : TeamStats) (e : EmployeeAnalysis),
      f (addStats s (statsOf e)) = f s + g e)
    (hf0 : ∀ e : EmployeeAnalysis, f (statsOf e) = g e)
    (e : EmployeeAnalysis) (acc : List (Str × TeamStats)) :
    ((bumpTeam e acc).map (fun p => f p.2)).sum =
      (acc.map (fun p => f p.2)).sum + g e := by
  induction acc with
  | nil =>
    show f (statsOf e) + 0 = 0 + g e
    rw [hf0]
    ring
  | cons p rest ih =>
    obtain ⟨k, st⟩ := p
    by_cases hk : k = e.team
    · have hbump : bumpTeam e ((k, st) :: rest) =
          (k, addStats st (statsOf e)) :: rest := by
        simp [bumpTeam, hk, addStats, statsOf]
      rw [hbump, List.map_cons, List.sum_cons, hf, List.map_cons, List.sum_cons]
      ring
    · have hbump : bumpTeam e ((k, st) :: rest) = (k, st) :: bumpTeam e rest := by
        simp [bumpTeam, hk]
      rw [hbump, List.map_cons, List.sum_cons, ih, List.map_cons, List.sum_cons]
      ring

/-- Summing a field of the folded summary object, for any accumulator. -/
theorem sum_map_foldl_bumpTeam (f : TeamStats → ℚ) (g : EmployeeAnalysis → ℚ)
    (hf : ∀ (s : TeamStats) (e : EmployeeAnalysis),
      f (addStats s (statsOf e)) = f s + g e)
    (hf0 : ∀ e : EmployeeAnalysis, f (statsOf e) = g e)
    (l : List EmployeeAnalysis) :
    ∀ acc : List (Str × TeamStats),
      ((l.foldl (fun acc e => bumpTeam e acc) acc).map (fun p => f p.2)).sum =
        (acc.map (fun p => f p.2)).sum + (l.map g).sum := by
  induction l with
  | nil => intro acc; simp
  | cons e l ih =>
    intro acc
    rw [List.foldl_cons, ih (bumpTeam e acc), sum_map_bumpTeam f g hf hf0,
      List.map_cons, List.sum_cons]
    ring

/-- Every entry the join produces has `variance = billed − budgeted`. -/
theorem mem_match_variance (databaseData : List DatabaseEmployeeData)
    (budgetData : List ProcessedBudgetData) (a : EmployeeAnalysis)
    (ha : a ∈ matchEmployeeData databaseData budgetData) :
    a.variance = a.billedHours - a.budgetedHours := by
  obtain ⟨db, _, h⟩ := List.mem_filterMap.mp ha
  obtain ⟨ini, be, tm, _, _, _, rfl⟩ := analyzeOne_eq_some h
  rfl

/-- Summing per-entry variances splits into billed and budgeted sums when
each entry's variance is its billed minus budgeted hours. -/
theorem variance_sum_split (l : List EmployeeAnalysis)
    (h : ∀ a ∈ l, a.variance = a.billedHours - a.budgetedHours) :
    (l.map (fun e => e.variance)).sum =
      (l.map (fun e => e.billedHours)).sum -
        (l.map (fun e => e.budgetedHours)).sum := by
  induction l with
  | nil => simp
  | cons a l ih =>
    simp only [List.map_cons, List.sum_cons]
    rw [h a (List.mem_cons_self a l), ih (fun b hb => h b (List.mem_cons_of_mem a hb))]
    ring

/-- C8: the team summary maps each display-form team name to the
componentwise sums of `budgetedHours`, `billedHours` and `variance` over that
team's employees together with their count, and the per-team values summed
over all teams equal the top-level `totalBudgeted`, `totalBilled` and
`budgetVariance`. -/
theorem c8_team_summary_aggregation (databaseData : List DatabaseEmployeeData)
    (budgetData : List ProcessedBudgetData) :
    (∀ (t : Str) (s : TeamStats),
      List.lookup t (summarizeAnalysis databaseData budgetData).teamSummary = some s →
      s.budgeted =
        (((summarizeAnalysis databaseData budgetData).employeeAnalysis.filter
          (fun e => e.team == t)).map (fun e => e.budgetedHours)).sum ∧
      s.billed =
        (((summarizeAnalysis databaseData budgetData).employeeAnalysis.filter
          (fun e => e.team == t)).map (fun e => e.billedHours)).sum ∧
      s.variance =
        (((summarizeAnalysis databaseData budgetData).employeeAnalysis.filter
          (fun e => e.team == t)).map (fun e => e.variance)).sum ∧
      s.employeeCount =
        ((summarizeAnalysis databaseData budgetData).employeeAnalysis.filter
          (fun e => e.team == t)).length) ∧
    ((summarizeAnalysis databaseData budgetData).teamSummary.map
      (fun p => p.2.budgeted)).sum =
      (summarizeAnalysis databaseData budgetData).totalBudgeted ∧
    ((summarizeAnalysis databaseData budgetData).teamSummary.map
      (fun p => p.2.billed)).sum =
      (summarizeAnalysis databaseData budgetData).totalBilled ∧
    ((summarizeAnalysis databaseData budgetData).teamSummary.map
      (fun p => p.2.variance)).sum =
      (summarizeAnalysis databaseData budgetData).budgetVariance := by
  refine ⟨?_, ?_, ?_, ?_⟩
  · intro t s hs
    have hts : (summarizeAnalysis databaseData budgetData).teamSummary =
        generateTeamSummary (matchEmployeeData databaseData budgetData) := rfl
    rw [hts] at hs
    unfold generateTeamSummary at hs
    rw [lookup_foldl_bumpTeam _ [] t] at hs
    simp only [List.lookup] at hs
    split at hs
    · cases hs
    · have := Option.some.inj hs
      subst this
      exact ⟨rfl, rfl, rfl, rfl⟩
  · have h := sum_map_foldl_bumpTeam (fun s => s.budgeted)
      (fun e => e.budgetedHours) (fun s e => rfl) (fun e => rfl)
      (matchEmployeeData databaseData budgetData) []
    simpa using h
  · have h := sum_map_foldl_bumpTeam (fun s => s.billed)
      (fun e => e.billedHours) (fun s e => rfl) (fun e => rfl)
      (matchEmployeeData databaseData budgetData) []
    simpa using h
  · have h := sum_map_foldl_bumpTeam (fun s => s.variance)
      (fun e => e.variance) (fun s e => rfl) (fun e => rfl)
      (matchEmployeeData databaseData budgetData) []
    have hsplit := variance_sum_split (matchEmployeeData databaseData budgetData)
      (fun a ha => mem_match_variance databaseData budgetData a ha)
    show ((generateTeamSummary (matchEmployeeData databaseData budgetData)).map
      (fun p => p.2.variance)).sum = _
    unfold generateTeamSummary
    rw [h]
    simpa using hsplit

/-- C8 witness: two same-team employees with budgeted/billed (100/110) and
(200/180) yield team sums budgeted 300, billed 290, variance −10,
employeeCount 2, and the summary sums match the top-level totals. -/
theorem c8_team_summary_aggregation_witness :
    matchEmployeeData dbTeamPair budTeamPair = [entryAAA, entryBBB] ∧
    List.lookup (str "CST III")
      (summarizeAnalysis dbTeamPair budTeamPair).teamSummary =
      some { budgeted := 300, billed := 290, variance := -10, employeeCount := 2 } ∧
    (300 : ℚ) =
      (((summarizeAnalysis dbTeamPair budTeamPair).employeeAnalysis.filter
        (fun e => e.team == str "CST III")).map (fun e => e.budgetedHours)).sum ∧
    ((summarizeAnalysis dbTeamPair budTeamPair).teamSummary.map
      (fun p => p.2.budgeted)).sum =
      (summarizeAnalysis dbTeamPair budTeamPair).totalBudgeted := by
  have hmatch : matchEmployeeData dbTeamPair budTeamPair = [entryAAA, entryBBB] := by
    show matchEmployeeData (dbAAA :: [dbBBB]) budTeamPair = [entryAAA, entryBBB]
    rw [matchEmployeeData_cons,
      analyzeOne_some_of (str "AAA") budAAA
        (str "CST III") (by decide) (by decide) (by decide),
      matchEmployeeData_cons,
      analyzeOne_some_of (str "BBB") budBBB
        (str "CST III") (by decide) (by decide) (by decide)]
    show _ :: _ :: matchEmployeeData [] budTeamPair = _
    simp only [matchEmployeeData, List.filterMap_nil, entryAAA, entryBBB,
      dbAAA, dbBBB, budAAA, budBBB, List.cons.injEq, EmployeeAnalysis.mk.injEq,
      and_true]
    norm_num
  have hts : (summarizeAnalysis dbTeamPair budTeamPair).teamSummary =
      generateTeamSummary [entryAAA, entryBBB] := by
    show generateTeamSummary (matchEmployeeData dbTeamPair budTeamPair) = _
    rw [hmatch]
  have hsum : generateTeamSummary [entryAAA, entryBBB] =
      [(str "CST III",
        { budgeted := 300, billed := 290, variance := -10, employeeCount := 2 })] := by
    simp only [generateTeamSummary, List.foldl, bumpTeam, entryAAA, entryBBB]
    norm_num
  have hlookup : List.lookup (str "CST III")
      (summarizeAnalysis dbTeamPair budTeamPair).teamSummary =
      some { budgeted := 300, billed := 290, variance := -10, employeeCount := 2 } := by
    rw [hts, hsum]
    decide
  refine ⟨hmatch, hlookup, ?_, ?_⟩
  · have h := ((c8_team_summary_aggregation dbTeamPair budTeamPair).1
      (str "CST III")
      { budgeted := 300, billed := 290, variance := -10, employeeCount := 2 }
      hlookup).1
    exact h
  · exact (c8_team_summary_aggregation dbTeamPair budTeamPair).2.1

/-- The whitespace predicate holds only for the four listed characters. -/
theorem isWs_cases (c : Char) (h : isWs c = true) :
    c = ' ' ∨ c = '\t' ∨ c = '\n' ∨ c = '\r' := by
  unfold isWs at h
  exact of_decide_eq_true h

/-- Uppercase letters are not whitespace. -/
theorem isUpper_not_ws (c : Char) (h : Char.isUpper c = true) : isWs c = false := by
  cases h2 : isWs c with
  | false => rfl
  | true =>
    exfalso
    rcases isWs_cases c h2 with rfl | rfl | rfl | rfl <;> exact absurd h (by decide)

/-- Every character of `natToStr n` is a decimal digit, hence neither
uppercase nor whitespace. -/
theorem natToStr_char_props (n : Nat) :
    ∀ c ∈ natToStr n,
      Char.isDigit c = true ∧ Char.isUpper c = false ∧ isWs c = false := by
  intro c hc
  unfold natToStr at hc
  by_cases h : n = 0
  · rw [if_pos h] at hc
    simp at hc
    subst hc
    exact ⟨by decide, by decide, by decide⟩
  · rw [if_neg h] at hc
    rw [List.mem_map] at hc
    obtain ⟨d, hd, rfl⟩ := hc
    rw [List.mem_reverse] at hd
    have hlt : d < 10 := Nat.digits_lt_base (by norm_num) hd
    interval_cases d <;> exact ⟨by decide, by decide, by decide⟩

/-- `natToStr n` is never empty. -/
theorem natToStr_ne_nil (n : Nat) : natToStr n ≠ [] := by
  unfold natToStr
  by_cases h : n = 0
  · rw [if_pos h]; simp
  · rw [if_neg h]
    simp only [ne_eq, List.map_eq_nil_iff, List.reverse_eq_nil_iff]
    exact Nat.digits_ne_nil_iff_ne_zero.mpr h

/-- Reading back the decimal rendering recovers the number. -/
theorem digitsToNat_natToStr (n : Nat) : digitsToNat (natToStr n) = n := by
  unfold natToStr
  by_cases h : n = 0
  · rw [if_pos h, h]; decide
  · rw [if_neg h]
    unfold digitsToNat
    rw [List.map_reverse, List.foldl_reverse, List.foldr_map]
    have key : ∀ ds : List Nat, (∀ d ∈ ds, d < 10) →
        List.foldr (fun d a => a * 10 + ((Nat.digitChar d).toNat - 48)) 0 ds =
          Nat.ofDigits 10 ds := by
      intro ds hds
      induction ds with
      | nil => simp [Nat.ofDigits]
      | cons d tl ih =>
        rw [List.foldr_cons, ih (fun x hx => hds x (List.mem_cons_of_mem d hx)),
          Nat.ofDigits_cons]
        have hd : d < 10 := hds d (List.mem_cons_self d tl)
        have hchar : (Nat.digitChar d).toNat - 48 = d := by
          interval_cases d <;> decide
        rw [hchar]
        ring
    rw [key (Nat.digits 10 n) (fun d hd => Nat.digits_lt_base (by norm_num) hd),
      Nat.ofDigits_digits]

/-- Dropping leading whitespace does nothing when both ends are
whitespace-free. -/
theorem jsTrim_no_ws_ends (s : Str)
    (hhead : ∀ c, s.head? = some c → isWs c = false)
    (hlast : ∀ c, s.getLast? = some c → isWs c = false) : jsTrim s = s := by
  unfold jsTrim
  have h1 : s.dropWhile isWs = s := by
    cases s with
    | nil => rfl
    | cons c cs =>
      rw [List.dropWhile_cons, hhead c rfl]
      simp
  rw [h1]
  have h2 : s.reverse.dropWhile isWs = s.reverse := by
    cases hr : s.reverse with
    | nil => rfl
    | cons c cs =>
      have : s.getLast? = some c := by
        rw [← List.head?_reverse, hr]
        rfl
      rw [List.dropWhile_cons, hlast c this]
      simp
  rw [h2, List.reverse_reverse]

/-- `takeWhile` runs through a block that satisfies the predicate. -/
theorem takeWhile_append_all (q : Char → Bool) (p rest : Str)
    (hp : ∀ c ∈ p, q c = true) :
    (p ++ rest).takeWhile q = p ++ rest.takeWhile q := by
  induction p with
  | nil => rfl
  | cons c cs ih =>
    rw [List.cons_append, List.takeWhile_cons, hp c (List.mem_cons_self c cs)]
    simp only [if_true]
    rw [ih (fun x hx => hp x (List.mem_cons_of_mem c hx))]
    simp

/-- `dropWhile` runs through a block that satisfies the predicate. -/
theorem dropWhile_append_all (q : Char → Bool) (p rest : Str)
    (hp : ∀ c ∈ p, q c = true) :
    (p ++ rest).dropWhile q = rest.dropWhile q := by
  induction p with
  | nil => rfl
  | cons c cs ih =>
    rw [List.cons_append, List.dropWhile_cons, hp c (List.mem_cons_self c cs)]
    exact ih (fun x hx => hp x (List.mem_cons_of_mem c hx))

/-- `takeWhile` of a list whose head fails the predicate is empty. -/
theorem takeWhile_eq_nil_of_head (q : Char → Bool) (s : Str)
    (h : ∀ c, s.head? = some c → q c = false) : s.takeWhile q = [] := by
  cases s with
  | nil => rfl
  | cons c cs =>
    rw [List.takeWhile_cons, h c rfl]
    rfl

/-- `dropWhile` of a list whose head fails the predicate is the list. -/
theorem dropWhile_eq_self_of_head (q : Char → Bool) (s : Str)
    (h : ∀ c, s.head? = some c → q c = false) : s.dropWhile q = s := by
  cases s with
  | nil => rfl
  | cons c cs =>
    rw [List.dropWhile_cons, h c rfl]
    simp

/-- Splitting a whitespace-free word yields the single accumulated word. -/
theorem splitWsAux_no_ws (w : Str) (hw : ∀ c ∈ w, isWs c = false) :
    ∀ acc : Str, (acc ≠ [] ∨ w ≠ []) → splitWsAux w acc = [acc.reverse ++ w] := by
  induction w with
  | nil =>
    intro acc hacc
    have hacc' : acc ≠ [] := by
      rcases hacc with h | h
      · exact h
      · exact absurd rfl h
    simp [splitWsAux, hacc']
  | cons c cs ih =>
    intro acc _
    have hc : isWs c = false := hw c (List.mem_cons_self c cs)
    rw [show splitWsAux (c :: cs) acc = splitWsAux cs (c :: acc) from by
      simp [splitWsAux, hc]]
    rw [ih (fun x hx => hw x (List.mem_cons_of_mem c hx)) (c :: acc)
      (Or.inl (by simp))]
    simp

/-- Splitting a whitespace-free word followed by a space emits the word and
continues. -/
theorem splitWsAux_word_break (p : Str) (hp : ∀ c ∈ p, isWs c = false)
    (rest : Str) :
    ∀ acc : Str, (acc ≠ [] ∨ p ≠ []) →
      splitWsAux (p ++ ' ' :: rest) acc =
        (acc.reverse ++ p) :: splitWsAux rest [] := by
  induction p with
  | nil =>
    intro acc hacc
    have hacc' : acc ≠ [] := by
      rcases hacc with h | h
      · exact h
      · exact absurd rfl h
    show splitWsAux (' ' :: rest) acc = _
    simp [splitWsAux, hacc', show isWs ' ' = true from by decide]
  | cons c cs ih =>
    intro acc _
    have hc : isWs c = false := hp c (List.mem_cons_self c cs)
    rw [show (c :: cs) ++ ' ' :: rest = c :: (cs ++ ' ' :: rest) from rfl]
    rw [show splitWsAux (c :: (cs ++ ' ' :: rest)) acc =
        splitWsAux (cs ++ ' ' :: rest) (c :: acc) from by simp [splitWsAux, hc]]
    rw [ih (fun x hx => hp x (List.mem_cons_of_mem c hx)) (c :: acc)
      (Or.inl (by simp))]
    simp

/-- Splitting `word ++ ' ' ++ word` yields the two words. -/
theorem jsSplitWs_two_words (p r : Str) (hp : ∀ c ∈ p, isWs c = false)
    (hp0 : p ≠ []) (hr : ∀ c ∈ r, isWs c = false) (hr0 : r ≠ []) :
    jsSplitWs (p ++ ' ' :: r) = [p, r] := by
  unfold jsSplitWs
  rw [splitWsAux_word_break p hp r [] (Or.inr hp0),
    splitWsAux_no_ws r hr [] (Or.inr hr0)]
  simp

/-- A successful association-list lookup locates its pair in the list. -/
theorem lookup_some_mem {α β : Type} [BEq α] [LawfulBEq α] {l : List (α × β)}
    {a : α} {b : β} (h : List.lookup a l = some b) : (a, b) ∈ l := by
  induction l with
  | nil => cases h
  | cons p rest ih =>
    obtain ⟨k, v⟩ := p
    simp only [List.lookup] at h
    cases hak : a == k with
    | true =>
      rw [hak] at h
      have hv := Option.some.inj h
      have hk := eq_of_beq hak
      subst hv
      subst hk
      exact List.mem_cons_self _ _
    | false =>
      rw [hak] at h
      exact List.mem_cons_of_mem _ (ih h)

/-- The Roman-numeral table entry of each in-range integer: present,
nonempty, whitespace-free, and converting back to the same integer. -/
theorem roman_table_facts (n : Nat) (h1 : 1 ≤ n) (h2 : n ≤ 20) :
    ∃ r : Str, List.lookup n ARABIC_TO_ROMAN = some r ∧ r ≠ [] ∧
      (∀ c ∈ r, isWs c = false) ∧ convertFromRoman r = some n := by
  interval_cases n <;> exact ⟨_, rfl, by decide, by decide, by decide⟩

/-- `convertToRoman` rejects integers outside 1–20. -/
theorem convertToRoman_out_of_range (m : Nat) (h : m = 0 ∨ 20 < m) :
    convertToRoman m = none := by
  unfold convertToRoman
  rw [if_neg]
  rintro ⟨hm1, hm2⟩
  rcases h with h | h <;> omega

/-- `convertFromRoman` only ever produces integers in 1–20. -/
theorem convertFromRoman_bounds (s : Str) (n : Nat)
    (h : convertFromRoman s = some n) : 1 ≤ n ∧ n ≤ 20 := by
  unfold convertFromRoman at h
  have hmem := lookup_some_mem h
  unfold ROMAN_TO_ARABIC at hmem
  rw [List.mem_map] at hmem
  obtain ⟨⟨a, r⟩, hmem2, heq⟩ := hmem
  have ha : a = n := congrArg Prod.snd heq
  subst ha
  simp only [ARABIC_TO_ROMAN, List.mem_cons, Prod.mk.injEq, List.mem_singleton,
    List.not_mem_nil, or_false] at hmem2
  rcases hmem2 with h | h | h | h | h | h | h | h | h | h |
    h | h | h | h | h | h | h | h | h | h <;>
    (obtain ⟨h1, -⟩ := h; omega)

/-- An uppercase prefix followed by a decimal rendering trims to itself and
matches the storage-team regex with the two expected capture groups. -/
theorem storage_team_decompose (p : Str) (hp0 : p ≠ [])
    (hup : ∀ c ∈ p, Char.isUpper c = true) (m : Nat) :
    jsTrim (p ++ natToStr m) = p ++ natToStr m ∧
    matchStorageTeam (p ++ natToStr m) = some (p, natToStr m) := by
  have hpws : ∀ c ∈ p, isWs c = false := fun c hc => isUpper_not_ws c (hup c hc)
  have hnchar := natToStr_char_props m
  obtain ⟨a, as, rfl⟩ : ∃ a as, p = a :: as := by
    cases p with
    | nil => exact absurd rfl hp0
    | cons a as => exact ⟨a, as, rfl⟩
  constructor
  · apply jsTrim_no_ws_ends
    · intro c hc
      have hca : a = c := by simpa using hc
      subst hca
      exact hpws a (List.mem_cons_self _ _)
    · intro c hc
      rw [List.getLast?_append] at hc
      cases hL : (natToStr m).getLast? with
      | none =>
        exact absurd (List.getLast?_eq_none_iff.mp hL) (natToStr_ne_nil m)
      | some l =>
        rw [hL] at hc
        have hcl : l = c := by simpa using hc
        subst hcl
        exact (hnchar l (List.mem_of_mem_getLast? hL)).2.2
  · have hhead : ∀ c, (natToStr m).head? = some c → Char.isUpper c = false :=
      fun c hc => (hnchar c (List.mem_of_mem_head? hc)).2.1
    have ht1 : ((a :: as) ++ natToStr m).takeWhile Char.isUpper = a :: as := by
      rw [takeWhile_append_all Char.isUpper _ _ hup,
        takeWhile_eq_nil_of_head Char.isUpper _ hhead]
      simp
    have ht2 : ((a :: as) ++ natToStr m).dropWhile Char.isUpper = natToStr m := by
      rw [dropWhile_append_all Char.isUpper _ _ hup]
      exact dropWhile_eq_self_of_head Char.isUpper _ hhead
    unfold matchStorageTeam
    rw [ht1, ht2, if_pos]
    refine ⟨by simp, natToStr_ne_nil m, ?_⟩
    exact List.all_eq_true.mpr (fun c hc => (hnchar c hc).1)

/-- Storage form → display form, for in-range team numbers. -/
theorem display_of_storage (p : Str) (hp0 : p ≠ [])
    (hup : ∀ c ∈ p, Char.isUpper c = true) (n : Nat) (h1 : 1 ≤ n) (h2 : n ≤ 20) :
    formatTeamNameForDisplay (p ++ natToStr n) =
      some (p ++ ' ' :: (List.lookup n ARABIC_TO_ROMAN).getD []) := by
  obtain ⟨r, hr, hrne, hrws, hrconv⟩ := roman_table_facts n h1 h2
  rw [hr]
  simp only [Option.getD_some]
  obtain ⟨htrim, hmatch⟩ := storage_team_decompose p hp0 hup n
  have hne : (p ++ natToStr n) ≠ [] := by
    cases p with
    | nil => exact absurd rfl hp0
    | cons a as => simp
  unfold formatTeamNameForDisplay
  rw [if_neg hne, htrim, hmatch]
  have hroman : convertToRoman (digitsToNat (natToStr n)) = some r := by
    rw [digitsToNat_natToStr]
    unfold convertToRoman
    rw [if_pos ⟨h1, h2⟩, hr]
  simp only [hroman]

/-- Storage form → display form fails for out-of-range team numbers. -/
theorem display_out_of_range (p : Str) (hp0 : p ≠ [])
    (hup : ∀ c ∈ p, Char.isUpper c = true) (m : Nat) (hm : m = 0 ∨ 20 < m) :
    formatTeamNameForDisplay (p ++ natToStr m) = none := by
  obtain ⟨htrim, hmatch⟩ := storage_team_decompose p hp0 hup m
  have hne : (p ++ natToStr m) ≠ [] := by
    cases p with
    | nil => exact absurd rfl hp0
    | cons a as => simp
  unfold formatTeamNameForDisplay
  rw [if_neg hne, htrim, hmatch]
  simp only [show convertToRoman (digitsToNat (natToStr m)) = none from by
    rw [digitsToNat_natToStr]
    exact convertToRoman_out_of_range m hm]

/-- Display form → storage form, for in-range team numbers. -/
theorem storage_of_display (p : Str) (hp0 : p ≠ [])
    (hup : ∀ c ∈ p, Char.isUpper c = true) (n : Nat) (h1 : 1 ≤ n) (h2 : n ≤ 20) :
    formatTeamNameForDatabase (p ++ ' ' :: (List.lookup n ARABIC_TO_ROMAN).getD []) =
      some (p ++ natToStr n) := by
  obtain ⟨r, hr, hrne, hrws, hrconv⟩ := roman_table_facts n h1 h2
  rw [hr]
  simp only [Option.getD_some]
  have hpws : ∀ c ∈ p, isWs c = false := fun c hc => isUpper_not_ws c (hup c hc)
  obtain ⟨a, as, rfl⟩ : ∃ a as, p = a :: as := by
    cases p with
    | nil => exact absurd rfl hp0
    | cons a as => exact ⟨a, as, rfl⟩
  have hne : ((a :: as) ++ ' ' :: r) ≠ [] := by simp
  have htrim : jsTrim ((a :: as) ++ ' ' :: r) = (a :: as) ++ ' ' :: r := by
    apply jsTrim_no_ws_ends
    · intro c hc
      have hca : a = c := by simpa using hc
      subst hca
      exact hpws a (List.mem_cons_self _ _)
    · intro c hc
      rw [show (a :: as) ++ ' ' :: r = ((a :: as) ++ [' ']) ++ r from by simp] at hc
      rw [List.getLast?_append] at hc
      cases hL : r.getLast? with
      | none => exact absurd (List.getLast?_eq_none_iff.mp hL) hrne
      | some l =>
        rw [hL] at hc
        have hcl : l = c := by simpa using hc
        subst hcl
        exact hrws l (List.mem_of_mem_getLast? hL)
  unfold formatTeamNameForDatabase
  rw [if_neg hne, htrim,
    jsSplitWs_two_words (a :: as) r hpws (by simp) hrws hrne]
  simp only [hrconv]

/-- C5: for every integer n in 1–20 and valid team prefix (a nonempty run of
uppercase letters), converting storage form to display form and display form
back to storage form are mutually inverse; for every integer outside 1–20 the
storage→display direction fails, and the display→storage direction can never
produce an integer outside 1–20 (no Roman numeral outside I–XX is accepted),
so both directions fail outside the range. -/
theorem c5_team_roundtrip :
    (∀ (n : Nat) (p : Str), 1 ≤ n → n ≤ 20 → p ≠ [] →
      (∀ c ∈ p, Char.isUpper c = true) →
      formatTeamNameForDisplay (p ++ natToStr n) =
        some (p ++ ' ' :: (List.lookup n ARABIC_TO_ROMAN).getD []) ∧
      formatTeamNameForDatabase
        (p ++ ' ' :: (List.lookup n ARABIC_TO_ROMAN).getD []) =
        some (p ++ natToStr n)) ∧
    (∀ (m : Nat) (p : Str), (m = 0 ∨ 20 < m) → p ≠ [] →
      (∀ c ∈ p, Char.isUpper c = true) →
      formatTeamNameForDisplay (p ++ natToStr m) = none) ∧
    (∀ (s : Str) (n : Nat), convertFromRoman s = some n → 1 ≤ n ∧ n ≤ 20) := by
  refine ⟨?_, ?_, ?_⟩
  · intro n p h1 h2 hp0 hup
    exact ⟨display_of_storage p hp0 hup n h1 h2,
      storage_of_display p hp0 hup n h1 h2⟩
  · intro m p hm hp0 hup
    exact display_out_of_range p hp0 hup m hm
  · intro s n h
    exact convertFromRoman_bounds s n h

/-- C5 witness: `CST3 ↔ CST III` round-trips both ways; `CST21` fails the
storage→display direction; `III` converts back into range. -/
theorem c5_team_roundtrip_witness :
    formatTeamNameForDisplay (str "CST3") = some (str "CST III") ∧
    formatTeamNameForDatabase (str "CST III") = some (str "CST3") ∧
    formatTeamNameForDisplay (str "CST21") = none ∧
    (convertFromRoman (str "III") = some 3 ∧ 1 ≤ 3 ∧ 3 ≤ 20) := by
  have h := (c5_team_roundtrip).1 3 (str "CST") (by decide) (by decide)
    (by decide) (by decide)
  have hout := (c5_team_roundtrip).2.1 21 (str "CST") (by decide) (by decide)
    (by decide)
  have hbound := (c5_team_roundtrip).2.2 (str "III") 3 (by decide)
  refine ⟨?_, ?_, ?_, by decide, hbound⟩
  · have := h.1
    rw [show str "CST" ++ natToStr 3 = str "CST3" from by simp [natToStr]; decide,
      show (List.lookup 3 ARABIC_TO_ROMAN).getD [] = str "III" from by decide]
      at this
    rw [this]
    decide
  · have := h.2
    rw [show (List.lookup 3 ARABIC_TO_ROMAN).getD [] = str "III" from by decide]
      at this
    rw [show str "CST III" = str "CST" ++ ' ' :: str "III" from by decide, this,
      show str "CST" ++ natToStr 3 = str "CST3" from by simp [natToStr]; decide]
  · rw [show str "CST21" = str "CST" ++ natToStr 21 from by simp [natToStr]; decide]
    exact hout
